import Mathlib

/-!
Verification of the pysdmx structural message reader and schema
resolution engine against its specification.

The development shallowly embeds:
* the artefact base model (`pysdmx/model/__base.py`): annotations,
  items, item schemes and the scheme lookup operator;
* the reference parser (short URNs) and its round-trip law;
* the SDMX-CSV 2.0 data reader (structure/action column handling,
  bookkeeping-column stripping);
* the components/schema model (role partition, constraint narrowing,
  hierarchy substitution);
* the reader mode dispatch for error/submission payloads;
* the registry-interface submission reader
  (`pysdmx/io/xml/sdmx21/reader/submission_reader.py`);
* the all/series data layout equivalence.

Machine strings are modelled as Lean `String`s (lists of characters
where character-level reasoning is needed); Python `None` becomes
`Option`; raised exceptions become `Except`/`Option` results.
-/

namespace PySdmx

/-! ## Artefact base model (from `src/pysdmx/model/__base.py`) -/

/-- `Annotation` from `model/__base.py`: extra information attached to
any SDMX construct. -/
structure Annotation where
  id : Option String := none
  title : Option String := none
  text : Option String := none
  url : Option String := none
  type : Option String := none
deriving DecidableEq

mutual

/-- `Item` from `model/__base.py`: an item of content in an item
scheme (a concept, a code, an agency, ...).  The Python class carries
the annotable/identifiable/nameable fields plus a non-owning scheme
back-reference, an optional parent and children.  `datetime` values
are modelled as opaque strings. -/
inductive Item : Type where
  | mk
      (annotations : List Annotation)
      (id : String)
      (uri : Option String)
      (urn : Option String)
      (name : Option String)
      (description : Option String)
      (scheme : Option ItemScheme)
      (parent : Option Item)
      (children : List Item) : Item

/-- `ItemScheme` from `model/__base.py`: a maintainable artefact owning
an ordered sequence of items.  Carries the full
annotable/identifiable/nameable/versionable/maintainable field stack. -/
inductive ItemScheme : Type where
  | mk
      (annotations : List Annotation)
      (id : String)
      (uri : Option String)
      (urn : Option String)
      (name : Option String)
      (description : Option String)
      (version : String)
      (validFrom : Option String)
      (validTo : Option String)
      (isFinal : Bool)
      (isExternalReference : Bool)
      (serviceUrl : Option String)
      (structureUrl : Option String)
      (maintainer : Option String)
      (items : List Item)
      (partialFlag : Bool) : ItemScheme

end

/-- The `id` attribute of an `Item`. -/
def Item.id : Item → String
  | .mk _ i _ _ _ _ _ _ _ => i

/-- The `items` attribute of an `ItemScheme`. -/
def ItemScheme.items : ItemScheme → List Item
  | .mk _ _ _ _ _ _ _ _ _ _ _ _ _ _ its _ => its

/-- `ItemScheme.__getitem__` from `model/__base.py`:
filter the scheme's items on the supplied id; return `None` when the
filtered list is empty (`len(out) == 0`), its first element (`out[0]`)
otherwise. -/
def ItemScheme.getItem (s : ItemScheme) (idQuery : String) : Option Item :=
  let out := s.items.filter (fun item => item.id == idQuery)
  if out.length = 0 then none else out.head?

/-! ## Helper lemmas on lists -/

theorem head_filter_eq_find (p : α → Bool) (l : List α) :
    (l.filter p).head? = l.find? p := by
  induction l with
  | nil => rfl
  | cons a t ih =>
    cases hp : p a with
    | true =>
      rw [List.find?_cons_of_pos _ hp]
      simp [List.filter_cons, hp]
    | false =>
      rw [List.find?_cons_of_neg _ (by simp [hp])]
      rw [List.filter_cons, hp]
      simp only [Bool.false_eq_true, if_false]
      exact ih

/-! ## C10 -/

/-- C10: For every `ItemScheme` `s` and string `id`, the lookup
`s[id]` is total (returns an `Option`, never raising): it returns the
first item of `s.items` in document order whose id equals the supplied
id, and returns `None` exactly when no item of the scheme has that
id. -/
theorem itemscheme_getitem_total_first_match (s : ItemScheme) (q : String) :
    s.getItem q = s.items.find? (fun item => item.id == q)
    ∧ (s.getItem q = none ↔ ∀ i ∈ s.items, i.id ≠ q) := by
  have hlen : s.getItem q = (s.items.filter (fun item => item.id == q)).head? := by
    unfold ItemScheme.getItem
    cases h : s.items.filter (fun item => item.id == q) <;> simp [h]
  constructor
  · rw [hlen]
    exact head_filter_eq_find _ _
  · rw [hlen, head_filter_eq_find, List.find?_eq_none]
    constructor
    · intro h i hi
      have := h i hi
      simpa using this
    · intro h i hi
      simpa using h i hi

/-! ## Reference parser (spec-modelled)

The reference parser lives in `pysdmx.util` and is not under `src/`,
so it is modelled from the spec (section 4.1): a short URN is
`<Class>=<agency>:<id>(<version>)[:<itemId>]`; parsing extracts class,
agency (an opaque dotted token, never split), id, version and an
optional trailing item id, and fails when the string matches neither
grammar or when agency/id/version are empty.  Strings are handled at
the character-list level. -/

/-- Modelled from the spec: the structured reference produced by
`parse_reference` (section 4.1) — artefact class, agency, id, version
and optional item id. -/
structure Reference where
  sdmxClass : List Char
  agency : List Char
  refId : List Char
  version : List Char
  item : Option (List Char)
deriving DecidableEq

/-- Split a character list at the first occurrence of `c`, returning
the parts before and after it, or `none` when `c` does not occur. -/
def splitFirst (c : Char) : List Char → Option (List Char × List Char)
  | [] => none
  | x :: xs =>
    if x = c then some ([], xs)
    else
      match splitFirst c xs with
      | none => none
      | some (a, b) => some (x :: a, b)

theorem splitFirst_eq_some {c : Char} {s a b : List Char}
    (h : splitFirst c s = some (a, b)) : s = a ++ c :: b ∧ c ∉ a := by
  induction s generalizing a with
  | nil => simp [splitFirst] at h
  | cons x xs ih =>
    rw [splitFirst] at h
    by_cases hx : x = c
    · rw [if_pos hx] at h
      cases h
      simp [hx]
    · rw [if_neg hx] at h
      cases hsub : splitFirst c xs with
      | none => rw [hsub] at h; cases h
      | some p =>
        obtain ⟨a0, b0⟩ := p
        rw [hsub] at h
        cases h
        obtain ⟨h1, h2⟩ := ih hsub
        refine ⟨by simp [h1], ?_⟩
        simp only [List.mem_cons]
        rintro (rfl | hmem)
        · exact hx rfl
        · exact h2 hmem

theorem splitFirst_append {c : Char} {a : List Char} (b : List Char)
    (h : c ∉ a) : splitFirst c (a ++ c :: b) = some (a, b) := by
  induction a with
  | nil => simp [splitFirst]
  | cons x xs ih =>
    have hx : x ≠ c := by
      intro hxc
      exact h (by simp [hxc])
    have hxs : c ∉ xs := fun hm => h (List.mem_cons_of_mem _ hm)
    simp only [List.cons_append, splitFirst, List.append_eq]
    rw [if_neg hx, ih hxs]

/-- Modelled from the spec: `parse_reference` on a short URN
`<Class>=<agency>:<id>(<version>)[:<itemId>]` (section 4.1).  The
string is cut at the first `=`, then the remainder at the first `:`
(the agency, a dotted token, contains no `:`), then at the first `(`
and the matching `)`; an optional trailing `:<itemId>` yields the item
id.  Parsing fails when a separator is missing, when agency, id or
version are empty, or when junk follows the version's closing
parenthesis. -/
def parse_reference (s : List Char) : Option Reference :=
  match splitFirst '=' s with
  | none => none
  | some (cls, rest) =>
    match splitFirst ':' rest with
    | none => none
    | some (ag, rest2) =>
      match splitFirst '(' rest2 with
      | none => none
      | some (rid, rest3) =>
        match splitFirst ')' rest3 with
        | none => none
        | some (ver, rest4) =>
          if ag = [] ∨ rid = [] ∨ ver = [] then none
          else
            match rest4 with
            | [] => some ⟨cls, ag, rid, ver, none⟩
            | ':' :: it => some ⟨cls, ag, rid, ver, some it⟩
            | _ => none

/-- Modelled from the spec: formatting a `Reference` back to its short
form `<Class>=<agency>:<id>(<version>)[:<itemId>]`. -/
def format_reference (r : Reference) : List Char :=
  r.sdmxClass ++ '=' :: r.agency ++ ':' :: r.refId ++ '(' :: r.version ++ ')' ::
    (match r.item with
      | none => []
      | some it => ':' :: it)

/-- A `Reference` whose fields obey the short-URN token grammar: class,
agency, id and version are non-empty and free of the separator that
delimits them. -/
def ValidReference (r : Reference) : Prop :=
  r.sdmxClass ≠ [] ∧ '=' ∉ r.sdmxClass
    ∧ r.agency ≠ [] ∧ ':' ∉ r.agency
    ∧ r.refId ≠ [] ∧ '(' ∉ r.refId
    ∧ r.version ≠ [] ∧ ')' ∉ r.version

instance : DecidablePred ValidReference := fun r => by
  unfold ValidReference
  infer_instance

theorem parse_format_eq (cls ag rid ver tail : List Char)
    (hc : '=' ∉ cls) (ha : ':' ∉ ag) (hi : '(' ∉ rid) (hv : ')' ∉ ver)
    (ha1 : ag ≠ []) (hi1 : rid ≠ []) (hv1 : ver ≠ []) :
    parse_reference
        (cls ++ '=' :: (ag ++ ':' :: (rid ++ '(' :: (ver ++ ')' :: tail))))
      = match tail with
        | [] => some ⟨cls, ag, rid, ver, none⟩
        | ':' :: it => some ⟨cls, ag, rid, ver, some it⟩
        | _ => none := by
  have e1 : splitFirst '='
        (cls ++ '=' :: (ag ++ ':' :: (rid ++ '(' :: (ver ++ ')' :: tail))))
      = some (cls, ag ++ ':' :: (rid ++ '(' :: (ver ++ ')' :: tail))) :=
    splitFirst_append _ hc
  have e2 : splitFirst ':' (ag ++ ':' :: (rid ++ '(' :: (ver ++ ')' :: tail)))
      = some (ag, rid ++ '(' :: (ver ++ ')' :: tail)) :=
    splitFirst_append _ ha
  have e3 : splitFirst '(' (rid ++ '(' :: (ver ++ ')' :: tail))
      = some (rid, ver ++ ')' :: tail) :=
    splitFirst_append _ hi
  have e4 : splitFirst ')' (ver ++ ')' :: tail) = some (ver, tail) :=
    splitFirst_append _ hv
  simp only [parse_reference, e1, e2, e3, e4, ha1, hi1, hv1, or_self,
    or_false, false_or, if_false, ite_false]

/-! ## C2 -/

/-- C2: round-trip of the reference parser.  First: for every string
`s` that parses as a short URN (every valid short URN string),
formatting the parsed `Reference` back to short form yields exactly
`s`.  Second: formatting any grammar-valid `Reference` to short form
and re-parsing it yields back an equal `Reference`. -/
theorem reference_roundtrip :
    (∀ s r, parse_reference s = some r → format_reference r = s)
    ∧ (∀ r, ValidReference r →
        parse_reference (format_reference r) = some r) := by
  constructor
  · intro s r h
    unfold parse_reference at h
    split at h
    · cases h
    rename_i cls rest h1
    split at h
    · cases h
    rename_i ag rest2 h2
    split at h
    · cases h
    rename_i rid rest3 h3
    split at h
    · cases h
    rename_i ver rest4 h4
    split at h
    · cases h
    split at h
    · cases h
      obtain ⟨hs, -⟩ := splitFirst_eq_some h1
      obtain ⟨hrest, -⟩ := splitFirst_eq_some h2
      obtain ⟨hrest2, -⟩ := splitFirst_eq_some h3
      obtain ⟨hrest3, -⟩ := splitFirst_eq_some h4
      subst hs hrest hrest2 hrest3
      simp [format_reference]
    · cases h
      obtain ⟨hs, -⟩ := splitFirst_eq_some h1
      obtain ⟨hrest, -⟩ := splitFirst_eq_some h2
      obtain ⟨hrest2, -⟩ := splitFirst_eq_some h3
      obtain ⟨hrest3, -⟩ := splitFirst_eq_some h4
      subst hs hrest hrest2 hrest3
      simp [format_reference]
    · cases h
  · rintro r hv
    obtain ⟨cls, ag, rid, ver, it⟩ := r
    obtain ⟨-, hc2, ha1, ha2, hi1, hi2, hv1, hv2⟩ := hv
    cases it with
    | none =>
      have h := parse_format_eq cls ag rid ver [] hc2 ha2 hi2 hv2 ha1 hi1 hv1
      simpa [format_reference] using h
    | some x =>
      have h :=
        parse_format_eq cls ag rid ver (':' :: x) hc2 ha2 hi2 hv2 ha1 hi1 hv1
      simpa [format_reference] using h

/-- C2 witness: the round-trip at the concrete short URN
`Codelist=SDMX:CL_FREQ(1.0)` and at a concrete item reference
`ConceptScheme=SDMX.X:CS_A(2.1.0):FREQ`. -/
theorem reference_roundtrip_witness :
    parse_reference (format_reference
        ⟨"Codelist".data, "SDMX".data, "CL_FREQ".data, "1.0".data, none⟩)
      = some ⟨"Codelist".data, "SDMX".data, "CL_FREQ".data, "1.0".data, none⟩
    ∧ format_reference
        ⟨"ConceptScheme".data, "SDMX.X".data, "CS_A".data, "2.1.0".data,
          some "FREQ".data⟩
      = "ConceptScheme=SDMX.X:CS_A(2.1.0):FREQ".data := by
  constructor
  · exact reference_roundtrip.2 _ (by decide)
  · exact reference_roundtrip.1 _ _ (by decide)

/-! ## SDMX-CSV 2.0 data reader (spec-modelled)

The SDMX-CSV 2.0 reader (`pysdmx.io.csv.sdmx20.reader`) is not under
`src/`; only its tests are.  The reader is modelled from the spec
(section 4.3) with the ACTION-conflict rule pinned by the repository's
own tests: `test_reading_two_actions` asserts that a payload whose
rows carry two distinct ACTION values (one of them the Delete action
`D`) reads successfully into a two-row dataset, while
`test_reading_three_actions` expects the error `Cannot have more than
one value on ACTION column`; accordingly, for each structure the
distinct ACTION values other than `D` must number at most one.  A
payload is a header row plus data rows of string cells. -/

/-- The bookkeeping column names dropped from emitted tabular data. -/
def bookkeepingCols : List String := ["STRUCTURE", "STRUCTURE_ID", "ACTION"]

/-- A tabular dataset emitted by the CSV reader: the owning structure's
short URN (the mapping key), the column names and the rows. -/
structure CsvDataset where
  shortUrn : String
  columns : List String
  rows : List (List String)
deriving DecidableEq

/-- Modelled from the spec: the artefact class spelled by a STRUCTURE
column value; values outside the recognized set have no class
(`proper values on STRUCTURE column`). -/
def structureClass : String → Option String
  | "dataflow" => some "DataFlow"
  | "datastructure" => some "DataStructure"
  | "provisionagreement" => some "ProvisionAgreement"
  | _ => none

/-- Modelled from the spec: the recognized ACTION codes
(Append/Replace/Delete/Information). -/
def validAction (a : String) : Bool :=
  ["A", "R", "D", "I"].contains a

/-- Modelled from the spec: building the dataset for one structure key
of an SDMX-CSV 2.0 payload — validate the STRUCTURE value, validate
the ACTION values of the structure's rows (at most one distinct value
other than the Delete action `D`, as pinned by the repository's
tests), then emit the structure's rows with the bookkeeping columns
dropped. -/
def mkCsvDataset (header : List String) (rows : List (List String))
    (si ii : Nat) (actIdx : Option Nat) (key : String × String) :
    Except String CsvDataset :=
  match structureClass key.1 with
  | none =>
    .error "Invalid SDMX-CSV 2.0: check that you have proper values on STRUCTURE column"
  | some cls =>
    let group := rows.filter
      (fun r => r.getD si "" == key.1 && r.getD ii "" == key.2)
    let actionCheck : Except String Unit :=
      match actIdx with
      | none => .ok ()
      | some ai =>
        let acts := (group.map (fun r => r.getD ai "")).dedup
        if !(acts.all validAction) then
          .error "Invalid SDMX-CSV 2.0: check that you have proper values on ACTION column"
        else if 1 < (acts.filter (fun a => !(a == "D"))).length then
          .error "Cannot have more than one value on ACTION column"
        else .ok ()
    match actionCheck with
    | .error e => .error e
    | .ok _ =>
      let keep := (List.range header.length).filter
        (fun j => decide (header.getD j "" ∉ bookkeepingCols))
      .ok ⟨cls ++ "=" ++ key.2,
        keep.map (fun j => header.getD j ""),
        group.map (fun r => keep.map (fun j => r.getD j ""))⟩

/-- Modelled from the spec: the SDMX-CSV 2.0 read operation (section
4.3).  The STRUCTURE/STRUCTURE_ID column pair identifies the structure
a row belongs to (their absence is an invalid payload); the ACTION
column is optional; each distinct structure key becomes an independent
dataset entry. -/
def readCsv2 (header : List String) (rows : List (List String)) :
    Except String (List CsvDataset) :=
  match header.findIdx? (fun c => c == "STRUCTURE"),
      header.findIdx? (fun c => c == "STRUCTURE_ID") with
  | some si, some ii =>
    let actIdx := header.findIdx? (fun c => c == "ACTION")
    let keys := (rows.map (fun r => (r.getD si "", r.getD ii ""))).dedup
    keys.mapM (mkCsvDataset header rows si ii actIdx)
  | _, _ => .error "Invalid SDMX-CSV 2.0"

/-! ### Helper lemmas about `Except` and `mapM` -/

theorem except_bind_ok {ε α β : Type} (a : α) (g : α → Except ε β) :
    (Except.ok a >>= g) = g a := rfl

theorem except_bind_err {ε α β : Type} (e : ε) (g : α → Except ε β) :
    ((Except.error e : Except ε α) >>= g) = Except.error e := rfl

theorem mapM_ok_mem {α β ε : Type} {f : α → Except ε β} :
    ∀ {l : List α} {out : List β}, l.mapM f = Except.ok out →
      (∀ y ∈ out, ∃ x ∈ l, f x = Except.ok y)
      ∧ (∀ x ∈ l, ∃ y, f x = Except.ok y) := by
  intro l
  induction l with
  | nil =>
    intro out h
    rw [List.mapM_nil] at h
    cases h
    exact ⟨by simp, by simp⟩
  | cons a t ih =>
    intro out h
    rw [List.mapM_cons] at h
    cases hfa : f a with
    | error e =>
      rw [hfa, except_bind_err] at h
      cases h
    | ok y =>
      rw [hfa, except_bind_ok] at h
      cases hmt : t.mapM f with
      | error e =>
        rw [hmt, except_bind_err] at h
        cases h
      | ok ys =>
        rw [hmt, except_bind_ok] at h
        cases h
        obtain ⟨ih1, ih2⟩ := ih hmt
        constructor
        · intro z hz
          rcases List.mem_cons.mp hz with rfl | hz
          · exact ⟨a, List.mem_cons_self _ _, hfa⟩
          · obtain ⟨x, hx, hfx⟩ := ih1 z hz
            exact ⟨x, List.mem_cons_of_mem _ hx, hfx⟩
        · intro x hx
          rcases List.mem_cons.mp hx with rfl | hx
          · exact ⟨y, hfa⟩
          · exact ih2 x hx

theorem mkCsvDataset_ok_columns {header : List String}
    {rows : List (List String)} {si ii : Nat} {actIdx : Option Nat}
    {key : String × String} {ds : CsvDataset}
    (h : mkCsvDataset header rows si ii actIdx key = Except.ok ds) :
    ∀ c ∈ ds.columns, c ∉ bookkeepingCols := by
  simp only [mkCsvDataset] at h
  repeat' split at h
  all_goals cases h
  all_goals
    intro c hc
    simp only [List.mem_map, List.mem_filter, List.mem_range,
      decide_eq_true_eq] at hc
    obtain ⟨j, ⟨-, hj⟩, rfl⟩ := hc
    exact hj

theorem mkCsvDataset_ok_actions {header : List String}
    {rows : List (List String)} {si ii ai : Nat}
    {key : String × String} {ds : CsvDataset}
    (h : mkCsvDataset header rows si ii (some ai) key = Except.ok ds) :
    (((rows.filter
          (fun r => r.getD si "" == key.1 && r.getD ii "" == key.2)).map
        (fun r => r.getD ai "")).dedup.filter
      (fun a => !(a == "D"))).length ≤ 1 := by
  simp only [mkCsvDataset] at h
  split at h
  · cases h
  split at h
  · cases h
  rename_i u heq
  split at heq
  · cases heq
  split at heq
  · cases heq
  rename_i hlt
  exact Nat.le_of_not_lt hlt

/-! ## C4 -/

/-- C4: for every SDMX-CSV 2.0 payload that is read successfully, none
of the emitted datasets' tabular columns is named `STRUCTURE`,
`STRUCTURE_ID` or `ACTION` — the bookkeeping columns are dropped
(including when the input payload carried an ACTION column, which is
allowed by the header). -/
theorem csv_read_drops_bookkeeping_columns
    (header : List String) (rows : List (List String))
    (dss : List CsvDataset) (h : readCsv2 header rows = Except.ok dss) :
    ∀ ds ∈ dss, "STRUCTURE" ∉ ds.columns ∧ "STRUCTURE_ID" ∉ ds.columns
      ∧ "ACTION" ∉ ds.columns := by
  intro ds hds
  unfold readCsv2 at h
  split at h
  case h_2 => cases h
  obtain ⟨key, -, hkey⟩ := (mapM_ok_mem h).1 ds hds
  have hcols := mkCsvDataset_ok_columns hkey
  refine ⟨fun hc => ?_, fun hc => ?_, fun hc => ?_⟩
  · exact hcols _ hc (by simp [bookkeepingCols])
  · exact hcols _ hc (by simp [bookkeepingCols])
  · exact hcols _ hc (by simp [bookkeepingCols])

/-- C4 witness: reading a concrete payload carrying STRUCTURE,
STRUCTURE_ID and ACTION columns succeeds, and the emitted dataset's
columns carry none of the three bookkeeping names. -/
theorem csv_read_drops_bookkeeping_columns_witness :
    "STRUCTURE" ∉ (CsvDataset.mk "DataFlow=BIS:BIS_DER(1.0)"
        ["FREQ", "OBS_VALUE"] [["A", "3.14"]]).columns
    ∧ "STRUCTURE_ID" ∉ (CsvDataset.mk "DataFlow=BIS:BIS_DER(1.0)"
        ["FREQ", "OBS_VALUE"] [["A", "3.14"]]).columns
    ∧ "ACTION" ∉ (CsvDataset.mk "DataFlow=BIS:BIS_DER(1.0)"
        ["FREQ", "OBS_VALUE"] [["A", "3.14"]]).columns := by
  have h := csv_read_drops_bookkeeping_columns
    ["STRUCTURE", "STRUCTURE_ID", "ACTION", "FREQ", "OBS_VALUE"]
    [["dataflow", "BIS:BIS_DER(1.0)", "A", "A", "3.14"]]
    [CsvDataset.mk "DataFlow=BIS:BIS_DER(1.0)"
      ["FREQ", "OBS_VALUE"] [["A", "3.14"]]]
    (by rfl)
  exact h _ (by simp)

/-! ## C1 -/

/-- A concrete SDMX-CSV 2.0 payload whose rows for the single structure
`DataStructure=TEST:TEST_MD(1.0)` carry two distinct ACTION values,
`A` (Append) and `D` (Delete), mirroring the repository's
`test_reading_two_actions`. -/
def twoActionHeader : List String :=
  ["STRUCTURE", "STRUCTURE_ID", "ACTION", "DIM1", "OBS_VALUE"]

def twoActionRows : List (List String) :=
  [["datastructure", "TEST:TEST_MD(1.0)", "A", "x", "1"],
   ["datastructure", "TEST:TEST_MD(1.0)", "D", "y", "2"]]

/-- A concrete payload whose rows for one structure carry three
distinct ACTION values (`A`, `R`, `D`), mirroring
`test_reading_three_actions`. -/
def threeActionRows : List (List String) :=
  [["datastructure", "TEST:TEST_MD(1.0)", "A", "x", "1"],
   ["datastructure", "TEST:TEST_MD(1.0)", "R", "y", "2"],
   ["datastructure", "TEST:TEST_MD(1.0)", "D", "z", "3"]]

/-- C1 counterexample: the claim says every payload whose rows for one
structure carry two or more distinct ACTION values fails and never
returns a dataset for that structure.  On the code this is false: a
payload with the two distinct ACTION values `A` and `D` for the same
structure is read successfully and a two-row dataset is returned for
that structure (exactly what the repository's
`test_reading_two_actions` asserts). -/
theorem csv_two_actions_returns_dataset :
    readCsv2 twoActionHeader twoActionRows
      = Except.ok [⟨"DataStructure=TEST:TEST_MD(1.0)", ["DIM1", "OBS_VALUE"],
          [["x", "1"], ["y", "2"]]⟩]
    ∧ ("A" : String) ≠ "D" := by
  exact ⟨by rfl, by decide⟩

/-- C1 (amended): if an SDMX-CSV 2.0 payload with an ACTION column is
read successfully, then for every structure of the payload the rows of
that structure carry at most one distinct ACTION value other than the
Delete action `D`; and a payload whose rows for one structure carry
three distinct ACTION values fails with the error naming the ACTION
column, never returning its datasets. -/
theorem csv_action_conflict :
    (∀ header rows si ii ai dss,
      header.findIdx? (fun c => c == "STRUCTURE") = some si →
      header.findIdx? (fun c => c == "STRUCTURE_ID") = some ii →
      header.findIdx? (fun c => c == "ACTION") = some ai →
      readCsv2 header rows = Except.ok dss →
      ∀ key ∈ (rows.map (fun r => (r.getD si "", r.getD ii ""))).dedup,
        (((rows.filter
              (fun r => r.getD si "" == key.1 && r.getD ii "" == key.2)).map
            (fun r => r.getD ai "")).dedup.filter
          (fun a => !(a == "D"))).length ≤ 1)
    ∧ readCsv2 twoActionHeader threeActionRows
        = Except.error "Cannot have more than one value on ACTION column" := by
  constructor
  · intro header rows si ii ai dss hsi hii hai hok key hkey
    unfold readCsv2 at hok
    rw [hsi, hii] at hok
    simp only [hai] at hok
    obtain ⟨ds, hds⟩ := (mapM_ok_mem hok).2 key hkey
    exact mkCsvDataset_ok_actions hds
  · rfl

/-- C1 witness: the amended conflict bound applied at the concrete
two-action payload — the read succeeds and the distinct non-Delete
ACTION values of its single structure number at most one. -/
theorem csv_action_conflict_witness :
    (((twoActionRows.filter
          (fun r => r.getD 0 "" == "datastructure"
            && r.getD 1 "" == "TEST:TEST_MD(1.0)")).map
        (fun r => r.getD 2 "")).dedup.filter
      (fun a => !(a == "D"))).length ≤ 1 := by
  have h := csv_action_conflict.1 twoActionHeader twoActionRows 0 1 2
    [⟨"DataStructure=TEST:TEST_MD(1.0)", ["DIM1", "OBS_VALUE"],
        [["x", "1"], ["y", "2"]]⟩]
    (by rfl) (by rfl) (by rfl) (by rfl)
    ("datastructure", "TEST:TEST_MD(1.0)") (by decide)
  exact h

/-! ## Components, constraints and hierarchies (spec-modelled)

The component model (`pysdmx.model.dataflow`) and the schema
resolution engine (`pysdmx.api.fmr`) are not under `src/`; only the
schema checks used by their tests are.  The structures below are
modelled from the spec (sections 3 and 4.5). -/

/-- Modelled from the spec: a component's role — Dimension, Measure or
Attribute. -/
inductive Role
  | dimension
  | measure
  | attr
deriving DecidableEq

/-- Modelled from the spec: a concept referenced by a component. -/
structure Concept where
  id : String
  name : Option String := none
  description : Option String := none
deriving DecidableEq

/-- Modelled from the spec: a code of a code list or value list. -/
structure Code where
  id : String
  name : Option String := none
deriving DecidableEq

/-- Modelled from the spec: a code list (or value list) with its
identity triple, its codes and its kind tag. -/
structure Codelist where
  id : String
  agency : String
  version : String
  codes : List Code
  sdmxType : String
deriving DecidableEq

/-- Modelled from the spec: a hierarchy node — a typed item pointing
(non-owning reference) to a code in some code list. -/
structure HierNode where
  codeId : String
deriving DecidableEq

/-- Modelled from the spec: a hierarchy — an item scheme of typed
nodes, optionally annotated with a user-defined aggregation-operator
URN that is passed through unchanged.  Its effective code set is the
set of nodes it enumerates. -/
structure Hierarchy where
  id : String
  agency : String := ""
  version : String := "1.0"
  operator : Option String := none
  nodes : List HierNode
deriving DecidableEq

/-- Modelled from the spec: a component's coded representation —
either a code list (or value list) or a hierarchy. -/
inductive Codes
  | codelist (cl : Codelist)
  | hierarchy (h : Hierarchy)
deriving DecidableEq

/-- The number of codes a representation enumerates (`len(codes)`):
the code list's codes, or the hierarchy's nodes. -/
def Codes.count : Codes → Nat
  | .codelist cl => cl.codes.length
  | .hierarchy h => h.nodes.length

/-- The aggregation-operator URN exposed by a representation: only a
hierarchy carries one. -/
def Codes.operatorUrn : Codes → Option String
  | .codelist _ => none
  | .hierarchy h => h.operator

/-! ## C3: content-constraint narrowing -/

/-- Modelled from the spec: content-constraint narrowing (section 4.5
step 5).  When a constraint supplies an allowed set for the component,
the effective code set is the intersection of the nominal
representation's codes with that set; when no constraint applies, the
nominal (unconstrained) set stands unmodified. -/
def applyConstraint (nominal : List Code) (allowed : Option (List String)) :
    List Code :=
  match allowed with
  | none => nominal
  | some vs => nominal.filter (fun c => vs.contains c.id)

/-- The 426 codes of the reporting-country code list in the concrete
scenario (ids `C0` … `C425`). -/
def repCtyCodes : List Code :=
  (List.range 426).map (fun n => ⟨"C" ++ toString n, none⟩)

/-- The 32 reporting countries allowed by the active content
constraint in the concrete scenario. -/
def repCtyAllowed : List String :=
  (List.range 32).map (fun n => "C" ++ toString n)

set_option maxRecDepth 8000 in
/-- C3: narrowing by a content constraint is intersection — a code is
in the effective set exactly when it is in the nominal set and allowed
by the constraint — so the constrained count never exceeds the
unconstrained one; with no applicable constraint the effective set
equals the nominal set; and concretely a reporting-country dimension
of 426 nominal codes resolves to 32 codes under the active
constraint. -/
theorem constraint_narrowing :
    (∀ nominal vs c, c ∈ applyConstraint nominal (some vs)
      ↔ c ∈ nominal ∧ c.id ∈ vs)
    ∧ (∀ nominal vs,
        (applyConstraint nominal (some vs)).length ≤ nominal.length)
    ∧ (∀ nominal, applyConstraint nominal none = nominal)
    ∧ repCtyCodes.length = 426
    ∧ (applyConstraint repCtyCodes (some repCtyAllowed)).length = 32 := by
  refine ⟨?_, ?_, ?_, ?_, ?_⟩
  · intro nominal vs c
    simp [applyConstraint, List.mem_filter]
  · intro nominal vs
    exact List.length_filter_le _ _
  · intro nominal
    rfl
  · rfl
  · rfl

/-! ## C6: hierarchy substitution -/

/-- Modelled from the spec: resolving a coded component's
representation (section 4.5 step 4).  When a hierarchical code
association binds a hierarchy to the component, the component's codes
become the hierarchy (its node set, with the operator URN passed
through unchanged); its absence means the component falls back to its
plain code list. -/
def resolveRepresentation (plain : Codelist) (hca : Option Hierarchy) :
    Codes :=
  match hca with
  | some h => .hierarchy h
  | none => .codelist plain

/-- The `H_OPTION_TYPE` hierarchy of the concrete scenario: three
nodes and a SUM aggregation operator. -/
def hOptionType : Hierarchy :=
  { id := "H_OPTION_TYPE"
    agency := "BIS"
    version := "1.0"
    operator := some ("urn:sdmx:org.sdmx.infomodel.transformation."
      ++ "UserDefinedOperator=SDMX:OPS(1.0).SUM")
    nodes := [⟨"C"⟩, ⟨"P"⟩, ⟨"O"⟩] }

/-- The plain `CL_OPTION_TYPE` code list of the concrete scenario,
with five codes — more than the hierarchy's three nodes. -/
def clOptionType : Codelist :=
  { id := "CL_OPTION_TYPE"
    agency := "BIS"
    version := "1.0"
    codes := [⟨"C", none⟩, ⟨"P", none⟩, ⟨"O", none⟩, ⟨"X", none⟩, ⟨"Y", none⟩]
    sdmxType := "codelist" }

/-- C6: a dimension bound to a hierarchy through a hierarchical code
association resolves to exactly the hierarchy's node set — its code
count is the hierarchy's node count and the aggregation-operator URN
is exposed unchanged — while absence of the association falls back to
the plain code list.  Concretely, the `H_OPTION_TYPE` hierarchy
resolves to 3 codes, not the code list's 5, with the SUM operator URN
intact. -/
theorem hierarchy_resolution :
    (∀ plain h, resolveRepresentation plain (some h) = Codes.hierarchy h
      ∧ (resolveRepresentation plain (some h)).count = h.nodes.length
      ∧ (resolveRepresentation plain (some h)).operatorUrn = h.operator)
    ∧ (∀ plain, resolveRepresentation plain none = Codes.codelist plain)
    ∧ (resolveRepresentation clOptionType (some hOptionType)).count = 3
    ∧ clOptionType.codes.length = 5
    ∧ (resolveRepresentation clOptionType (some hOptionType)).operatorUrn
        = some ("urn:sdmx:org.sdmx.infomodel.transformation."
          ++ "UserDefinedOperator=SDMX:OPS(1.0).SUM") := by
  exact ⟨fun plain h => ⟨rfl, rfl, rfl⟩, fun plain => rfl, rfl, rfl, rfl⟩

/-! ## C5: the Components collection -/

/-- Modelled from the spec: a component of a data structure — binds a
concept to a representation, with role, requiredness, attachment level
and optional codes (section 3). -/
structure Component where
  id : String
  name : Option String := none
  description : Option String := none
  role : Role
  concept : Concept
  required : Bool := true
  attachmentLevel : Option String := none
  codes : Option Codes := none
deriving DecidableEq

/-- Modelled from the spec: the Components collection of a resolved
schema. -/
structure Components where
  comps : List Component
deriving DecidableEq

/-- Modelled from the spec: invariant-preserving construction of a
Components collection (section 3): component ids must be unique within
the collection and each component's id must equal its concept's id. -/
def mkComponents (l : List Component) : Option Components :=
  if (l.map Component.id).Nodup ∧ ∀ c ∈ l, c.id = c.concept.id then
    some ⟨l⟩
  else none

/-- The dimensions view, reconstructed from `role`, never stored. -/
def Components.dimensions (cs : Components) : List Component :=
  cs.comps.filter (fun c => decide (c.role = Role.dimension))

/-- The measures view, reconstructed from `role`, never stored. -/
def Components.measures (cs : Components) : List Component :=
  cs.comps.filter (fun c => decide (c.role = Role.measure))

/-- The attributes view, reconstructed from `role`, never stored. -/
def Components.attributes (cs : Components) : List Component :=
  cs.comps.filter (fun c => decide (c.role = Role.attr))

theorem role_filter_length (l : List Component) :
    (l.filter (fun c => decide (c.role = Role.dimension))).length
    + (l.filter (fun c => decide (c.role = Role.measure))).length
    + (l.filter (fun c => decide (c.role = Role.attr))).length
    = l.length := by
  induction l with
  | nil => rfl
  | cons a t ih =>
    cases ha : a.role <;> simp [List.filter_cons, ha] <;> omega

/-- C5: every validly constructed Components collection has pairwise
distinct component ids, each component's id equals its concept's id,
and the three derived views — dimensions, measures, attributes — are
pairwise disjoint with their union equal to the whole collection (both
as membership and by count). -/
theorem components_invariants (l : List Component) (cs : Components)
    (h : mkComponents l = some cs) :
    (cs.comps.map Component.id).Nodup
    ∧ (∀ c ∈ cs.comps, c.id = c.concept.id)
    ∧ (∀ c, c ∈ cs.comps
        ↔ c ∈ cs.dimensions ∨ c ∈ cs.measures ∨ c ∈ cs.attributes)
    ∧ (∀ c, ¬(c ∈ cs.dimensions ∧ c ∈ cs.measures))
    ∧ (∀ c, ¬(c ∈ cs.dimensions ∧ c ∈ cs.attributes))
    ∧ (∀ c, ¬(c ∈ cs.measures ∧ c ∈ cs.attributes))
    ∧ cs.dimensions.length + cs.measures.length + cs.attributes.length
        = cs.comps.length := by
  unfold mkComponents at h
  split at h
  case isFalse => cases h
  rename_i hval
  cases h
  obtain ⟨hnd, hid⟩ := hval
  refine ⟨hnd, hid, ?_, ?_, ?_, ?_, role_filter_length l⟩
  · intro c
    unfold Components.dimensions Components.measures Components.attributes
    simp only [List.mem_filter, decide_eq_true_eq]
    constructor
    · intro hc
      cases hr : c.role
      · exact Or.inl ⟨hc, rfl⟩
      · exact Or.inr (Or.inl ⟨hc, rfl⟩)
      · exact Or.inr (Or.inr ⟨hc, rfl⟩)
    · rintro (⟨hc, -⟩ | ⟨hc, -⟩ | ⟨hc, -⟩) <;> exact hc
  · rintro c ⟨h1, h2⟩
    unfold Components.dimensions at h1
    unfold Components.measures at h2
    simp only [List.mem_filter, decide_eq_true_eq] at h1 h2
    rw [h1.2] at h2
    cases h2.2
  · rintro c ⟨h1, h2⟩
    unfold Components.dimensions at h1
    unfold Components.attributes at h2
    simp only [List.mem_filter, decide_eq_true_eq] at h1 h2
    rw [h1.2] at h2
    cases h2.2
  · rintro c ⟨h1, h2⟩
    unfold Components.measures at h1
    unfold Components.attributes at h2
    simp only [List.mem_filter, decide_eq_true_eq] at h1 h2
    rw [h1.2] at h2
    cases h2.2

/-- A concrete well-formed Components collection: one dimension, one
measure, one attribute. -/
def demoComponents : List Component :=
  [{ id := "FREQ", role := Role.dimension, concept := ⟨"FREQ", none, none⟩ },
   { id := "OBS_VALUE", role := Role.measure,
     concept := ⟨"OBS_VALUE", none, none⟩ },
   { id := "DECIMALS", role := Role.attr,
     concept := ⟨"DECIMALS", none, none⟩ }]

/-- C5 witness: the invariants instantiated at a concrete collection —
in particular the three derived views partition its three
components. -/
theorem components_invariants_witness :
    (Components.mk demoComponents).dimensions.length
    + (Components.mk demoComponents).measures.length
    + (Components.mk demoComponents).attributes.length
    = (Components.mk demoComponents).comps.length := by
  have h := components_invariants demoComponents
    (Components.mk demoComponents) (by rfl)
  exact h.2.2.2.2.2.2

/-! ## Reader mode dispatch (spec-modelled)

`read_xml` and its mode handling (`pysdmx.io.xml.sdmx21.reader`) are
not under `src/`; the mode state machine is modelled from the spec
(section 4.4), with the generic mismatch message pinned by the
repository's test (`Unable to parse sdmx file as`). -/

/-- Modelled from the spec: the expected message modes of the XML
reader. -/
inductive MessageType
  | Error
  | Submission
  | Structure
  | Data
deriving DecidableEq

/-- The label of a mode, used in the generic mismatch error. -/
def MessageType.label : MessageType → String
  | .Error => "Error"
  | .Submission => "Submission"
  | .Structure => "Structure"
  | .Data => "Data"

/-- Modelled from the spec: the O(1)-detectable root shape of an
SDMX-ML payload — detection inspects the root element only.  An error
payload carries its numeric status code and title. -/
inductive RootShape
  | errorRoot (status : Nat) (title : String)
  | submissionRoot
  | structureRoot
  | dataRoot
deriving DecidableEq

/-- The errors surfaced by the reader: the structured registry error
(numeric status and human title) and the generic value error. -/
inductive ReadError
  | clientError (status : Nat) (title : String)
  | valueError (msg : String)
deriving DecidableEq

/-- Modelled from the spec: mode detection from the root shape only. -/
def detectMode : RootShape → MessageType
  | .errorRoot _ _ => .Error
  | .submissionRoot => .Submission
  | .structureRoot => .Structure
  | .dataRoot => .Data

/-- Modelled from the spec: parsing a payload in a given (matching)
mode — an error payload parsed in Error mode raises the structured
registry error carrying exactly the payload's status and title
(section 4.2); other parses succeed at this level of abstraction. -/
def parseAs (m : MessageType) (p : RootShape) : Except ReadError Unit :=
  match m, p with
  | .Error, .errorRoot st title => .error (.clientError st title)
  | _, _ => .ok ()

/-- Modelled from the spec: the reader mode state machine (section
4.4).  A caller-pinned mode that does not match the payload's actual
root shape fails with the generic mode-mismatch error rather than a
best-effort parse; a matching (or inferred) mode parses the payload. -/
def readXmlModel (p : RootShape) (mode : Option MessageType) :
    Except ReadError Unit :=
  let actual := detectMode p
  match mode with
  | some m =>
    if m = actual then parseAs m p
    else .error (.valueError ("Unable to parse sdmx file as " ++ m.label))
  | none => parseAs actual p

/-! ## C7 -/

/-- C7: reading a registry error payload with numeric status 304 (or
any status) and a title in Error mode raises the structured error
carrying exactly that status and title; reading the same payload
pinned to the Submission mode instead fails with the generic
mode-mismatch error, not with the structured registry error. -/
theorem error_mode_fidelity (st : Nat) (title : String) :
    readXmlModel (RootShape.errorRoot st title) (some MessageType.Error)
      = Except.error (ReadError.clientError st title)
    ∧ readXmlModel (RootShape.errorRoot st title)
        (some MessageType.Submission)
      = Except.error
          (ReadError.valueError "Unable to parse sdmx file as Submission") :=
  ⟨rfl, rfl⟩

/-! ## Submission reader (from
`src/src/pysdmx/io/xml/sdmx21/reader/submission_reader.py`) -/

/-- The submitted structure node of a submission result: its action
and the URN of its maintainable object. -/
structure SubmittedStructure where
  action : String
  urn : String
deriving DecidableEq

/-- One submission result node of the registry-interface response: the
submitted structure and the status message's status. -/
structure SubmissionResultNode where
  submitted : SubmittedStructure
  statusMsgStatus : String
deriving DecidableEq

/-- The parsed registry-interface message: the submission results of
the submit-structure response. -/
structure RegistryInterfaceMsg where
  results : List SubmissionResultNode
deriving DecidableEq

/-- `SubmissionResult` (`pysdmx.model.submission`, modelled from the
spec section 3): action, short URN and status of one submitted
structure. -/
structure SubmissionResult where
  action : String
  shortUrn : String
  status : String
deriving DecidableEq

/-- The segment of `s` after the last occurrence of `c` (all of `s`
when `c` does not occur). -/
def lastSegmentAfter (c : Char) (s : List Char) : List Char :=
  (s.reverse.takeWhile (fun x => !(x == c))).reverse

/-- Modelled from the spec: `parse_urn(urn).full_id` (`pysdmx.util`,
not under `src/`) — the short URN `Class=agency:id(version)` of a full
URN `urn:sdmx:org.sdmx.infomodel.<package>.<Class>=<rest>`: the
segment before `=` is cut after its last dot and rejoined to the rest;
a string without `=` is not a URN. -/
def fullIdOfUrn (urn : String) : Option String :=
  match splitFirst '=' urn.data with
  | none => none
  | some (left, right) => some ⟨lastSegmentAfter '.' left ++ '=' :: right⟩

/-- Insertion into a Python-dict-like association list: replace the
value at an existing key, append a fresh key. -/
def dictInsert {β : Type} (m : List (String × β)) (k : String) (v : β) :
    List (String × β) :=
  if m.any (fun p => p.1 == k) then
    m.map (fun p => if p.1 == k then (k, v) else p)
  else m ++ [(k, v)]

/-- `handle_registry_interface` from
`io/xml/sdmx21/reader/submission_reader.py`: walk the submission
results of the submit-structure response; for each, take the action
and the maintainable object's URN from the submitted structure, derive
`full_id` via `parse_urn`, take the status message's status, and store
`SubmissionResult(action, full_id, status)` under the key `full_id` in
the result mapping.  A URN `parse_urn` cannot parse (which raises in
Python) yields `none`. -/
def handle_registry_interface (msg : RegistryInterfaceMsg) :
    Option (List (String × SubmissionResult)) :=
  msg.results.foldlM
    (fun acc sr =>
      match fullIdOfUrn sr.submitted.urn with
      | none => none
      | some fid =>
        some (dictInsert acc fid
          ⟨sr.submitted.action, fid, sr.statusMsgStatus⟩))
    []

/-- The short URN of a submission result node (its parsed `full_id`,
defaulted for statement purposes). -/
def nodeShortUrn (sr : SubmissionResultNode) : String :=
  (fullIdOfUrn sr.submitted.urn).getD ""

theorem any_key_eq_false {β : Type} {acc : List (String × β)} {k : String}
    (h : k ∉ acc.map Prod.fst) : acc.any (fun p => p.1 == k) = false := by
  rw [List.any_eq_false]
  intro p hp hbeq
  exact h (List.mem_map.mpr ⟨p, hp, by simpa using hbeq⟩)

theorem handle_registry_loop {rs : List SubmissionResultNode}
    {acc : List (String × SubmissionResult)}
    (hp : ∀ sr ∈ rs, (fullIdOfUrn sr.submitted.urn).isSome)
    (hnd : (acc.map Prod.fst ++ rs.map nodeShortUrn).Nodup) :
    rs.foldlM
      (fun acc sr =>
        match fullIdOfUrn sr.submitted.urn with
        | none => none
        | some fid =>
          some (dictInsert acc fid
            ⟨sr.submitted.action, fid, sr.statusMsgStatus⟩))
      acc
    = some (acc ++ rs.map (fun sr =>
        (nodeShortUrn sr,
          ⟨sr.submitted.action, nodeShortUrn sr, sr.statusMsgStatus⟩))) := by
  induction rs generalizing acc with
  | nil => simp
  | cons sr rs ih =>
    obtain ⟨fid, hfid⟩ := Option.isSome_iff_exists.mp
      (hp sr (List.mem_cons_self _ _))
    have hfid' : nodeShortUrn sr = fid := by
      simp [nodeShortUrn, hfid]
    have hfresh : fid ∉ acc.map Prod.fst := by
      intro hmem
      have hd := (List.nodup_append.mp (by simpa using hnd)).2.2
      exact hd hmem (by simp [hfid'])
    rw [List.foldlM_cons, hfid]
    have hins : dictInsert acc fid
        ⟨sr.submitted.action, fid, sr.statusMsgStatus⟩
        = acc ++ [(fid, ⟨sr.submitted.action, fid, sr.statusMsgStatus⟩)] := by
      unfold dictInsert
      rw [if_neg (by simp [any_key_eq_false hfresh])]
    show (rs.foldlM _ (dictInsert acc fid
        ⟨sr.submitted.action, fid, sr.statusMsgStatus⟩)) = _
    rw [hins]
    rw [ih (fun x hx => hp x (List.mem_cons_of_mem _ hx))
      (by
        rw [List.map_append, List.append_assoc]
        simpa [hfid'] using hnd)]
    simp [hfid', List.append_assoc]

/-! ## C8 -/

/-- C8: parsing a submission response whose submitted structures all
carry parseable URNs with pairwise distinct short URNs emits a mapping
with exactly one entry per submitted structure, keyed by that
structure's short URN, whose value is a `SubmissionResult` carrying
the structure's action, short URN and status. -/
theorem submission_mapping (msg : RegistryInterfaceMsg)
    (hp : ∀ sr ∈ msg.results, (fullIdOfUrn sr.submitted.urn).isSome)
    (hnd : (msg.results.map nodeShortUrn).Nodup) :
    handle_registry_interface msg
      = some (msg.results.map (fun sr =>
          (nodeShortUrn sr,
            ⟨sr.submitted.action, nodeShortUrn sr,
              sr.statusMsgStatus⟩))) := by
  unfold handle_registry_interface
  exact handle_registry_loop hp (by simpa using hnd)

/-- The two-structure Append/Success submission response of the
concrete scenario. -/
def submissionAppendMsg : RegistryInterfaceMsg :=
  ⟨[⟨⟨"Append", "urn:sdmx:org.sdmx.infomodel.datastructure."
        ++ "DataStructure=BIS:BIS_DER(1.0)"⟩, "Success"⟩,
    ⟨⟨"Append", "urn:sdmx:org.sdmx.infomodel.datastructure."
        ++ "Dataflow=BIS:WEBSTATS_DER_DATAFLOW(1.0)"⟩, "Success"⟩]⟩

/-- C8 witness: the concrete payload with two structures each marked
Append/Success yields exactly the two short-URN keys, each with action
`Append` and status `Success`. -/
theorem submission_mapping_witness :
    handle_registry_interface submissionAppendMsg
      = some [("DataStructure=BIS:BIS_DER(1.0)",
                ⟨"Append", "DataStructure=BIS:BIS_DER(1.0)", "Success"⟩),
              ("Dataflow=BIS:WEBSTATS_DER_DATAFLOW(1.0)",
                ⟨"Append", "Dataflow=BIS:WEBSTATS_DER_DATAFLOW(1.0)",
                  "Success"⟩)] := by
  have h := submission_mapping submissionAppendMsg (by decide) (by decide)
  rw [h]
  rfl

/-! ## Data layouts (spec-modelled)

The XML data readers are not under `src/`; the "all" and "series"
observation layouts are modelled from the spec (section 4.3): "all"
carries one element per observation with all dimension values
repeated; "series" groups observations under a series key holding the
dimension values at group level.  Both generic and structure-specific
encodings share these layouts; cell encoding differences are invisible
at this level. -/

/-- Modelled from the spec: one series group of a series-layout
payload — the series key (dimension values at group level) and the
observations (observation-dimension value and measure value). -/
structure SeriesEntry where
  seriesKey : List String
  obs : List (String × String)
deriving DecidableEq

/-- Modelled from the spec: the "all" layout of the same data — one
element per observation carrying the full key (all dimension values
repeated) and the value. -/
def flattenAll (s : List SeriesEntry) : List (List String × String) :=
  s.flatMap (fun e => e.obs.map (fun o => (e.seriesKey ++ [o.1], o.2)))

/-- Modelled from the spec: tabulating an "all"-layout payload — one
row per observation: full key then value. -/
def readAllLayout (a : List (List String × String)) : List (List String) :=
  a.map (fun o => o.1 ++ [o.2])

/-- Modelled from the spec: tabulating a series-layout payload — one
row per observation: series key, observation dimension, value. -/
def readSeriesLayout (s : List SeriesEntry) : List (List String) :=
  s.flatMap (fun e => e.obs.map (fun o => e.seriesKey ++ [o.1, o.2]))

/-! ## C9 -/

/-- C9: for the same observation data, the "all" layout and the
"series" layout produce row-equivalent tabular datasets — identical
rows (hence the same number of rows and the same columns); the chosen
wire layout is invisible in the resulting dataset shape. -/
theorem layout_equivalence (s : List SeriesEntry) :
    readSeriesLayout s = readAllLayout (flattenAll s)
    ∧ (readSeriesLayout s).length
        = (readAllLayout (flattenAll s)).length := by
  have h : readSeriesLayout s = readAllLayout (flattenAll s) := by
    simp [readSeriesLayout, readAllLayout, flattenAll, List.map_flatMap,
      List.map_map, Function.comp_def, List.append_assoc,
      List.singleton_append, List.cons_append]
  exact ⟨h, by rw [h]⟩

end PySdmx
